import Mathlib

/-!
Shallow embedding of the quote-scraper pipeline (`scraper_corrected.py`):
the Page Fetcher (`get_page_content`), the Field Extractor
(`parse_quote_page`), the Pagination Resolver (`get_next_page_url`),
the Crawl Driver (`scrape_all_pages`) and the Dataset Writer
(`save_to_csv`), together with theorems settling the specification
claims about them.

HTML documents are modelled structurally: a page is a list of quote
containers (each with an optional text node, an optional author node and
a list of tag strings) plus an optional "next" marker.  The network is
modelled as a function from URL to the outcome of `get_page_content`
(`Option RawDoc`): `none` for a failed request, otherwise the body,
carrying a flag recording whether the body text is empty (Python's
`if not html_content` treats the empty string like `None`).
-/

namespace Scraper

/-- One `<div class="quote">` container: the text of its
`<span class="text">` node if present, the text of its
`<small class="author">` node if present, and the texts of its
`<a class="tag">` nodes in document order.  A present node may carry the
empty string (an empty element yields `get_text() == ""`). -/
structure QuoteDiv where
  textSpan : Option String
  authorNode : Option String
  tags : List String
deriving DecidableEq, Repr

/-- The `<a>` element inside the "next" marker; `href` is its `href`
attribute, absent when the anchor carries no link target. -/
structure NextAnchor where
  href : Option String
deriving DecidableEq, Repr

/-- The `<li class="next">` navigation marker; `anchor` is its `<a>`
descendant, if any. -/
structure NextButton where
  anchor : Option NextAnchor
deriving DecidableEq, Repr

/-- A parsed page document: the quote containers in document order and
the optional "next" navigation marker. -/
structure PageDoc where
  quoteDivs : List QuoteDiv
  nextLi : Option NextButton
deriving DecidableEq, Repr

/-- A successfully fetched body as seen by the Driver: `emptyBody` is
true when the response text is the empty string (falsy in Python), and
`doc` is the structural parse of the body. -/
structure RawDoc where
  emptyBody : Bool
  doc : PageDoc
deriving DecidableEq, Repr

/-- One extracted record, with the field names used by the source
(`texto`, `autor`, `tags` comma-joined, `num_tags`, `num_palavras`,
`data_coleta`). -/
structure Entry where
  texto : String
  autor : String
  tags : String
  num_tags : Nat
  num_palavras : Nat
  data_coleta : String
deriving DecidableEq, Repr

/-- Python `s.strip(c)` for a one-character set: removes every leading
and every trailing occurrence of `c` (all of them, not one layer). -/
def pyStrip (c : Char) (s : String) : String :=
  String.mk (((s.data.dropWhile (· == c)).reverse.dropWhile (· == c)).reverse)

/-- Line 54 of the source: `text.strip(q).strip(q)` where `q` is the
ASCII double-quote character, applied twice in sequence. -/
def stripQuotes (s : String) : String :=
  pyStrip '"' (pyStrip '"' s)

/-- Python `s.split()` with no argument: the maximal whitespace-free
tokens of `s`, i.e. split on whitespace and drop empty pieces. -/
def pySplitWs (s : String) : List String :=
  ((s.data.splitOnP Char.isWhitespace).map String.mk).filter (fun t => t ≠ "")

/-- Processing of one quote container inside `parse_quote_page`'s loop:
if the text node or the author node is absent, `.get_text()` on `None`
raises `AttributeError`, the `except` clause skips the container
(`none`); otherwise an entry is built.  `now` stands for the
`datetime.now()` timestamp string. -/
def parseQuoteDiv (now : String) (d : QuoteDiv) : Option Entry :=
  match d.textSpan with
  | none => none
  | some rawText =>
    match d.authorNode with
    | none => none
    | some author =>
      let text := stripQuotes rawText
      some { texto := text
             autor := author
             tags := String.intercalate ", " d.tags
             num_tags := d.tags.length
             num_palavras := (pySplitWs text).length
             data_coleta := now }

/-- Model of `parse_quote_page`: extract entries from every container, skipping
the containers whose required fields are missing. -/
def parse_quote_page (now : String) (doc : PageDoc) : List Entry :=
  doc.quoteDivs.filterMap (parseQuoteDiv now)

/-- Model of `get_next_page_url`: if the `li.next` marker is absent, or carries
no `<a>` descendant, return `None`; if the anchor is present, read its
`href` attribute — `next_link['href']` raises `KeyError` when the
attribute is absent — and return `base_url + href`. -/
def get_next_page_url (base : String) (doc : PageDoc) :
    Except String (Option String) :=
  match doc.nextLi with
  | none => Except.ok none
  | some btn =>
    match btn.anchor with
    | none => Except.ok none
    | some a =>
      match a.href with
      | none => Except.error "KeyError: href"
      | some h => Except.ok (some (base ++ h))

/-- Outcome of the HTTP GET issued by `get_page_content`: a final
response with a status code and a body, or a raised
`requests` exception (network error / timeout). -/
inductive HttpOutcome where
  | response (status : Nat) (body : String)
  | netError
  | timeout
deriving DecidableEq, Repr

/-- Model of `get_page_content`: `response.raise_for_status()` raises `HTTPError`
exactly for status codes 400–599; that error, like `Timeout` and
`ConnectionError`, is a `requests.RequestException`, caught by the
`except` clause which returns `None`.  Otherwise the body text is
returned.  The function is total: no exception escapes to the caller. -/
def get_page_content (o : HttpOutcome) : Option String :=
  match o with
  | HttpOutcome.response status body =>
      if 400 ≤ status ∧ status < 600 then none else some body
  | HttpOutcome.netError => none
  | HttpOutcome.timeout => none

/-- Observable events of one crawl: a page fetch attempt (with its URL)
and the inter-request `time.sleep(1)` pause. -/
inductive Ev where
  | fetch (url : String)
  | sleep
deriving DecidableEq, Repr

/-- Number of fetch attempts in a trace. -/
def countFetches (tr : List Ev) : Nat :=
  tr.countP (fun e => match e with | Ev.fetch _ => true | Ev.sleep => false)

/-- The loop of `scrape_all_pages`, as a function of the remaining page
budget (`max_pages - pages_scraped`).  Returns the events of the rest of
the crawl and the entries collected by the rest of the crawl (the loop
only ever appends to `quotes_data`, so the final list is the entries
already collected followed by this suffix).  `net url` is what
`get_page_content(url)` returns; a `None` body or an empty body text
breaks out of the loop; a `KeyError` escaping `get_next_page_url`
aborts the crawl with an exception (`Except.error`).  After computing
the next URL the loop sleeps exactly when that URL is truthy (not
`None` and not the empty string) — including when the page budget is
already exhausted; a falsy next URL ends the loop without a sleep. -/
def scrapeLoop (net : String → Option RawDoc) (base now : String) :
    Option String → Nat → List Ev × Except String (List Entry)
  | none, _ => ([], Except.ok [])
  | some _, 0 => ([], Except.ok [])
  | some url, fuel + 1 =>
    match net url with
    | none => ([Ev.fetch url], Except.ok [])
    | some raw =>
      if raw.emptyBody then ([Ev.fetch url], Except.ok [])
      else
        let pageQuotes := parse_quote_page now raw.doc
        match get_next_page_url base raw.doc with
        | Except.error e => ([Ev.fetch url], Except.error e)
        | Except.ok none => ([Ev.fetch url], Except.ok pageQuotes)
        | Except.ok (some u) =>
          if u = "" then ([Ev.fetch url], Except.ok pageQuotes)
          else
            let rest := scrapeLoop net base now (some u) fuel
            (Ev.fetch url :: Ev.sleep :: rest.1,
             match rest.2 with
             | Except.ok l => Except.ok (pageQuotes ++ l)
             | Except.error e => Except.error e)

/-- Model of `scrape_all_pages`: start at `base_url + '/page/1/'` with
`pages_scraped = 0` and an empty accumulator. -/
def scrape_all_pages (net : String → Option RawDoc) (base now : String)
    (max_pages : Nat) : List Ev × Except String (List Entry) :=
  scrapeLoop net base now (some (base ++ "/page/1/")) max_pages

/-- Recognizer for traces in which every `sleep` event is immediately
preceded by a `fetch` event; the boolean state records whether the
previous event was a fetch. -/
def sleepsOnlyAfterFetch : List Ev → Bool → Bool
  | [], _ => true
  | Ev.fetch _ :: t, _ => sleepsOnlyAfterFetch t true
  | Ev.sleep :: t, afterFetch => afterFetch && sleepsOnlyAfterFetch t false

/-- The CSV header row written by `save_to_csv`. -/
def csvHeader : String := "texto,autor,tags,num_tags,num_palavras,data_coleta"

/-- Field quoting of `csv.writer` (QUOTE_MINIMAL): a field is quoted when it
contains the delimiter, the quote character or a line break. -/
def csvNeedsQuote (s : String) : Bool :=
  s.any (fun c => c == ',' || c == '"' || c == '\n' || c == '\r')

/-- Render one CSV field, doubling embedded quote characters when the
field must be quoted. -/
def csvField (s : String) : String :=
  if csvNeedsQuote s then "\"" ++ s.replace "\"" "\"\"" ++ "\"" else s

/-- One CSV data row, in the fixed field order of the source. -/
def entryRow (e : Entry) : String :=
  String.intercalate ","
    ([e.texto, e.autor, e.tags, toString e.num_tags, toString e.num_palavras,
      e.data_coleta].map csvField)

/-- Result of `save_to_csv`: either the "Nenhum dado para salvar!"
signal with no file written, or the lines of the written file. -/
inductive SaveResult where
  | noData
  | wrote (lines : List String)
deriving DecidableEq, Repr

/-- Model of `save_to_csv`: if `quotes_data` is empty, print the no-data message
and return without creating a file; otherwise write the header followed
by one row per entry. -/
def save_to_csv (entries : List Entry) : SaveResult :=
  if entries.isEmpty then SaveResult.noData
  else SaveResult.wrote (csvHeader :: entries.map entryRow)

/-- The relation `Reaches net base url docs lastUrl` means: starting a loop iteration
at `url`, each fetch succeeds with a non-empty body, the fetched pages
are `docs` in order, each page's resolver yields the next (truthy,
i.e. non-empty) URL in the chain, and the chain ends at `lastUrl`
(whose page is not included). -/
inductive Reaches (net : String → Option RawDoc) (base : String) :
    String → List PageDoc → String → Prop
  | refl (url : String) : Reaches net base url [] url
  | step (url : String) (d : PageDoc) (u : String) (rest : List PageDoc)
      (lastUrl : String) :
      net url = some ⟨false, d⟩ →
      get_next_page_url base d = Except.ok (some u) →
      u ≠ "" →
      Reaches net base u rest lastUrl →
      Reaches net base url (d :: rest) lastUrl

/-- A concrete two-container page: one well-formed container and one
whose text span is missing. -/
def pageForC3 : PageDoc :=
  { quoteDivs :=
      [{ textSpan := some "\"Hi there\"", authorNode := some "Ada", tags := ["life"] },
       { textSpan := none, authorNode := some "Bob", tags := [] }],
    nextLi := none }

/-- A concrete two-container page: one well-formed container and one
whose author node is missing. -/
def pageForC4 : PageDoc :=
  { quoteDivs :=
      [{ textSpan := some "\"Hi there\"", authorNode := some "Ada", tags := [] },
       { textSpan := some "\"Lost\"", authorNode := none, tags := ["x"] }],
    nextLi := none }

/-- A concrete entry used to instantiate the Writer theorems. -/
def entryForC9 : Entry :=
  { texto := "Hi there", autor := "Ada", tags := "life, love",
    num_tags := 2, num_palavras := 2, data_coleta := "t0" }

/-- The single page of the C1 witness network: one quote container and
no next marker. -/
def docForC1 : PageDoc :=
  { quoteDivs := [{ textSpan := some "\"Hi there\"", authorNode := some "Ada",
                    tags := ["life"] }],
    nextLi := none }

/-- The C1 witness network: only the first listing page exists. -/
def netForC1 : String → Option RawDoc :=
  fun u => if u = "b" ++ "/page/1/"
    then some { emptyBody := false, doc := docForC1 } else none

/-- The network of the C10 witness: page 1 is fine and links to page 2,
whose fetch succeeds with an empty body. -/
def netForC10 : String → Option RawDoc :=
  fun u =>
    if u = "b" ++ "/page/1/" then
      some { emptyBody := false,
             doc := { quoteDivs := [{ textSpan := some "\"Hi\"",
                                      authorNode := some "Ada", tags := [] }],
                      nextLi := some { anchor := some { href := some "/page/2/" } } } }
    else if u = "b" ++ "/page/2/" then
      some { emptyBody := true, doc := { quoteDivs := [], nextLi := none } }
    else none

/-- The first page of the C10 witness network. -/
def docForC10 : PageDoc :=
  { quoteDivs := [{ textSpan := some "\"Hi\"", authorNode := some "Ada",
                    tags := [] }],
    nextLi := some { anchor := some { href := some "/page/2/" } } }

/-- The network of the C6 theorems: one page that links to a next
page. -/
def netForC6 : String → Option RawDoc :=
  fun u =>
    if u = "b" ++ "/page/1/" then
      some { emptyBody := false,
             doc := { quoteDivs := [],
                      nextLi := some { anchor := some { href := some "/page/2/" } } } }
    else none

/-! ### Properties of the text normalization (claim C5) -/

/-- The list of characters underlying `pyStrip` is the right-trim of the
left-trim of the input. -/
theorem pyStrip_data (c : Char) (s : String) :
    (pyStrip c s).data =
      List.rdropWhile (· == c) (s.data.dropWhile (· == c)) := rfl

/-- The head of `dropWhile p l`, when it exists, does not satisfy `p`. -/
theorem head?_dropWhile_not {α : Type} (p : α → Bool) (l : List α) {a : α}
    (h : (List.dropWhile p l).head? = some a) : p a = false := by
  induction l with
  | nil => simp at h
  | cons x xs ih =>
    rw [List.dropWhile_cons] at h
    by_cases hx : p x = true
    · rw [if_pos hx] at h; exact ih h
    · rw [if_neg hx] at h
      simp only [List.head?_cons, Option.some_inj] at h
      subst h
      simpa using hx

/-- A list of the form `rdropWhile p (dropWhile p l)` has no leading
element satisfying `p`, so a further `dropWhile p` is the identity. -/
theorem dropWhile_rdropWhile_dropWhile {α : Type} (p : α → Bool) (l : List α) :
    List.dropWhile p (List.rdropWhile p (List.dropWhile p l)) =
      List.rdropWhile p (List.dropWhile p l) := by
  rcases hB : List.rdropWhile p (List.dropWhile p l) with _ | ⟨b, t⟩
  · rfl
  · obtain ⟨t2, ht2⟩ : (b :: t) <+: List.dropWhile p l := by
      rw [← hB]; exact List.rdropWhile_prefix p _
    have h2 : (List.dropWhile p l).head? = some b := by
      rw [← ht2]; simp
    have hpb : p b = false := head?_dropWhile_not p l h2
    simp [List.dropWhile_cons, hpb]

/-- The two-pass strip of the source is idempotent: the second
application of `.strip(q)` changes nothing, because the first already
removed every leading and trailing occurrence of the glyph. -/
theorem pyStrip_pyStrip (c : Char) (s : String) :
    pyStrip c (pyStrip c s) = pyStrip c s := by
  apply String.ext
  show List.rdropWhile (· == c) ((pyStrip c s).data.dropWhile (· == c)) =
    (pyStrip c s).data
  rw [pyStrip_data, dropWhile_rdropWhile_dropWhile, List.rdropWhile_idempotent]

/-- The composite `stripQuotes` coincides with a single strip pass. -/
theorem stripQuotes_eq_single (s : String) :
    stripQuotes s = pyStrip '"' s :=
  pyStrip_pyStrip '"' s

/-- The first character of a stripped string is never the stripped
glyph. -/
theorem pyStrip_head_ne (c : Char) (s : String) (ch : Char)
    (h : (pyStrip c s).data.head? = some ch) : ch ≠ c := by
  rw [pyStrip_data] at h
  rcases hB : List.rdropWhile (· == c) (s.data.dropWhile (· == c)) with _ | ⟨b, t⟩
  · rw [hB] at h; simp at h
  · rw [hB] at h
    simp only [List.head?_cons, Option.some_inj] at h
    obtain ⟨t2, ht2⟩ : (b :: t) <+: s.data.dropWhile (· == c) := by
      rw [← hB]; exact List.rdropWhile_prefix _ _
    have h2 : (s.data.dropWhile (· == c)).head? = some b := by
      rw [← ht2]; simp
    have hpb : (b == c) = false := head?_dropWhile_not (· == c) s.data h2
    rw [← h]
    simpa using hpb

/-- The last character of a stripped string is never the stripped
glyph. -/
theorem pyStrip_getLast_ne (c : Char) (s : String) (ch : Char)
    (h : (pyStrip c s).data.getLast? = some ch) : ch ≠ c := by
  rw [pyStrip_data] at h
  have hne : List.rdropWhile (· == c) (s.data.dropWhile (· == c)) ≠ [] := by
    intro hnil
    rw [hnil] at h
    simp at h
  have hlast := List.rdropWhile_last_not (· == c) (s.data.dropWhile (· == c)) hne
  rw [List.getLast?_eq_getLast _ hne, Option.some_inj] at h
  rw [h] at hlast
  simpa using hlast

/-- C5 (amended): the normalization strips ALL leading and trailing
quotation glyphs (the ASCII double-quote), not one layer: the
single-glyph strip is applied twice in sequence, but already the first
application removes every leading and trailing occurrence, so the second
is redundant (the composite equals a single strip) and the result never
starts or ends with the glyph. -/
theorem stripQuotes_removes_all_edge_quotes (s : String) :
    stripQuotes s = pyStrip '"' s ∧
    (∀ ch, (stripQuotes s).data.head? = some ch → ch ≠ '"') ∧
    (∀ ch, (stripQuotes s).data.getLast? = some ch → ch ≠ '"') := by
  refine ⟨stripQuotes_eq_single s, fun ch h => ?_, fun ch h => ?_⟩
  · rw [stripQuotes_eq_single] at h
    exact pyStrip_head_ne '"' s ch h
  · rw [stripQuotes_eq_single] at h
    exact pyStrip_getLast_ne '"' s ch h

/-- Witness for the amended C5 statement at a concrete doubly-quoted
input: the double strip equals a single strip there, and the head of
the stripped text is not a quotation glyph. -/
theorem stripQuotes_removes_all_edge_quotes_witness :
    stripQuotes "\"\"ab\"\"" = pyStrip '"' "\"\"ab\"\"" ∧
    ('a' : Char) ≠ '"' :=
  ⟨(stripQuotes_removes_all_edge_quotes "\"\"ab\"\"").1,
   (stripQuotes_removes_all_edge_quotes "\"\"ab\"\"").2.1 'a' rfl⟩

/-- C5 counterexample: on a text enclosed in doubled quotation glyphs
the normalization removes BOTH enclosing layers, not exactly one — the
claim would require the result `"quote"` still wrapped in one layer of
glyphs. -/
theorem double_quote_strip_removes_both_layers :
    stripQuotes "\"\"quote\"\"" = "quote" ∧
    ("quote" : String) ≠ "\"quote\"" := by
  exact ⟨rfl, by decide⟩

/-! ### Properties of the Field Extractor (claims C3 and C4) -/

/-- Inversion of the per-container extraction: an emitted entry comes
from a container with both required nodes present, its text is the
stripped span text and its author is the author node's text. -/
theorem parseQuoteDiv_eq_some (now : String) (d : QuoteDiv) (e : Entry)
    (h : parseQuoteDiv now d = some e) :
    ∃ t a, d.textSpan = some t ∧ d.authorNode = some a ∧
      e.texto = stripQuotes t ∧ e.autor = a := by
  rcases ht : d.textSpan with _ | t
  · rw [parseQuoteDiv, ht] at h; exact absurd h (by simp)
  · rcases ha : d.authorNode with _ | a
    · rw [parseQuoteDiv, ht, ha] at h; exact absurd h (by simp)
    · rw [parseQuoteDiv, ht, ha] at h
      simp only [Option.some_inj] at h
      exact ⟨t, a, rfl, rfl, by rw [← h], by rw [← h]⟩

/-- The extractor emits exactly one entry per container that has both
required nodes, and none for the others. -/
theorem parse_quote_page_length (now : String) (doc : PageDoc) :
    (parse_quote_page now doc).length =
      (doc.quoteDivs.filter
        (fun d => d.textSpan.isSome && d.authorNode.isSome)).length := by
  rw [parse_quote_page]
  induction doc.quoteDivs with
  | nil => rfl
  | cons d l ih =>
    rcases ht : d.textSpan with _ | t
    · simp [List.filterMap_cons, List.filter_cons, parseQuoteDiv, ht, ih]
    · rcases ha : d.authorNode with _ | a
      · simp [List.filterMap_cons, List.filter_cons, parseQuoteDiv, ht, ha, ih]
      · simp [List.filterMap_cons, List.filter_cons, parseQuoteDiv, ht, ha, ih]

/-- C3 (amended): a container missing a required field (text or author)
is dropped rather than emitted — the output has exactly one entry per
container with both required nodes present — but an emitted entry's
text is the stripped span text, which is empty when the span's own text
is empty or consists solely of quotation glyphs; it is not guaranteed
non-empty. -/
theorem parse_drops_malformed_containers (now : String) (doc : PageDoc) :
    (parse_quote_page now doc).length =
      (doc.quoteDivs.filter
        (fun d => d.textSpan.isSome && d.authorNode.isSome)).length ∧
    ∀ e ∈ parse_quote_page now doc, ∃ d ∈ doc.quoteDivs,
      ∃ t a, d.textSpan = some t ∧ d.authorNode = some a ∧
        e.texto = stripQuotes t := by
  refine ⟨parse_quote_page_length now doc, fun e he => ?_⟩
  rw [parse_quote_page] at he
  obtain ⟨d, hd, hps⟩ := List.mem_filterMap.mp he
  obtain ⟨t, a, ht, ha, htex, _⟩ := parseQuoteDiv_eq_some now d e hps
  exact ⟨d, hd, t, a, ht, ha, htex⟩

/-- Witness for the amended C3 statement at a concrete page: of the two
containers only the well-formed one yields an entry. -/
theorem parse_drops_malformed_containers_witness :
    (parse_quote_page "t0" pageForC3).length =
      (pageForC3.quoteDivs.filter
        (fun d => d.textSpan.isSome && d.authorNode.isSome)).length :=
  (parse_drops_malformed_containers "t0" pageForC3).1

/-- C3 counterexample: a container whose text span is present but
consists only of quotation glyphs is emitted with an empty text field,
not dropped. -/
theorem emitted_entry_with_empty_text :
    (parse_quote_page "t0"
      { quoteDivs := [{ textSpan := some "\"\"", authorNode := some "Ada", tags := [] }],
        nextLi := none }).map Entry.texto = [""] := rfl

/-- C4 (amended): a container missing a required field (text or author)
is skipped and extraction continues — one entry is still emitted for
every container with both required nodes present, and when some
container lacks an author node the output is strictly shorter than the
container count; but an emitted entry's author is the author node's
text, which may itself be the empty string, so an entry with an empty
author can be produced. -/
theorem parse_skips_missing_author (now : String) (doc : PageDoc) :
    (parse_quote_page now doc).length =
      (doc.quoteDivs.filter
        (fun d => d.textSpan.isSome && d.authorNode.isSome)).length ∧
    ((∃ d ∈ doc.quoteDivs, d.authorNode = none) →
      (parse_quote_page now doc).length < doc.quoteDivs.length) ∧
    ∀ e ∈ parse_quote_page now doc, ∃ d ∈ doc.quoteDivs,
      d.authorNode = some e.autor := by
  refine ⟨parse_quote_page_length now doc, fun hex => ?_, fun e he => ?_⟩
  · obtain ⟨d, hd, ha⟩ := hex
    rw [parse_quote_page_length now doc]
    exact List.length_filter_lt_length_iff_exists.mpr ⟨d, hd, by simp [ha]⟩
  · rw [parse_quote_page] at he
    obtain ⟨d, hd, hps⟩ := List.mem_filterMap.mp he
    obtain ⟨t, a, ht, ha, _, haut⟩ := parseQuoteDiv_eq_some now d e hps
    refine ⟨d, hd, ?_⟩
    rw [ha, haut]

/-- Witness for the amended C4 statement at a concrete page with a
container that lacks its author node: the output is strictly shorter
than the container count. -/
theorem parse_skips_missing_author_witness :
    (parse_quote_page "t0" pageForC4).length < pageForC4.quoteDivs.length :=
  (parse_skips_missing_author "t0" pageForC4).2.1
    ⟨{ textSpan := some "\"Lost\"", authorNode := none, tags := ["x"] },
     by rw [pageForC4]; simp, rfl⟩

/-- C4 counterexample: a container whose author node is present but
empty produces an entry whose author field is the empty string. -/
theorem emitted_entry_with_empty_author :
    (parse_quote_page "t0"
      { quoteDivs := [{ textSpan := some "\"Hi\"", authorNode := some "", tags := [] }],
        nextLi := none }).map Entry.autor = [""] := rfl

/-! ### Properties of the Pagination Resolver (claim C7) -/

/-- C7 (amended): the Resolver returns nothing when the "next" marker is
absent, and also when the marker is present but contains no anchor
element; when an anchor with a link target is present it returns the
base URL concatenated with the target; but when the anchor is present
WITHOUT a link target the lookup of the target raises a `KeyError`
instead of returning nothing. -/
theorem resolver_next_page_cases (base : String) (doc : PageDoc) :
    (doc.nextLi = none → get_next_page_url base doc = Except.ok none) ∧
    (∀ btn, doc.nextLi = some btn → btn.anchor = none →
      get_next_page_url base doc = Except.ok none) ∧
    (∀ btn a h, doc.nextLi = some btn → btn.anchor = some a →
      a.href = some h →
      get_next_page_url base doc = Except.ok (some (base ++ h))) ∧
    (∀ btn a, doc.nextLi = some btn → btn.anchor = some a →
      a.href = none →
      get_next_page_url base doc = Except.error "KeyError: href") := by
  refine ⟨fun h1 => ?_, fun btn h1 h2 => ?_, fun btn a h h1 h2 h3 => ?_,
    fun btn a h1 h2 h3 => ?_⟩
  · rw [get_next_page_url, h1]
  · simp [get_next_page_url, h1, h2]
  · simp [get_next_page_url, h1, h2, h3]
  · simp [get_next_page_url, h1, h2, h3]

/-- Witness for the amended C7 statement at a concrete page whose
marker carries an anchor with a link target. -/
theorem resolver_next_page_cases_witness :
    get_next_page_url "b"
      { quoteDivs := [],
        nextLi := some { anchor := some { href := some "/page/2/" } } } =
      Except.ok (some ("b" ++ "/page/2/")) :=
  (resolver_next_page_cases "b"
    { quoteDivs := [],
      nextLi := some { anchor := some { href := some "/page/2/" } } }).2.2.1
    { anchor := some { href := some "/page/2/" } } { href := some "/page/2/" }
    "/page/2/" rfl rfl rfl

/-- C7 counterexample: a marker whose anchor has no `href` attribute
makes the Resolver fail with a `KeyError` rather than return nothing. -/
theorem resolver_errors_on_missing_href :
    get_next_page_url "b"
      { quoteDivs := [], nextLi := some { anchor := some { href := none } } } =
      Except.error "KeyError: href" ∧
    (Except.error "KeyError: href" : Except String (Option String)) ≠
      Except.ok none := by
  exact ⟨rfl, fun h => Except.noConfusion h⟩

/-! ### Properties of the Page Fetcher (claim C8) -/

/-- C8 (amended): the Fetcher returns the body for every 2xx status and
a failure value for every network error or timeout and for every
4xx/5xx status — but `raise_for_status` only raises for statuses
400–599, so a non-success status outside that range (e.g. a surviving
3xx such as 304) also returns the body rather than a failure.  The
function is total, so no exception reaches the caller. -/
theorem fetcher_success_iff_not_4xx5xx :
    (∀ status body, 200 ≤ status ∧ status < 300 →
      get_page_content (HttpOutcome.response status body) = some body) ∧
    (∀ status body, 400 ≤ status ∧ status < 600 →
      get_page_content (HttpOutcome.response status body) = none) ∧
    (∀ status body, ¬(400 ≤ status ∧ status < 600) →
      get_page_content (HttpOutcome.response status body) = some body) ∧
    get_page_content HttpOutcome.netError = none ∧
    get_page_content HttpOutcome.timeout = none := by
  refine ⟨fun status body h => ?_, fun status body h => ?_,
    fun status body h => ?_, rfl, rfl⟩
  · rw [get_page_content, if_neg (by omega)]
  · rw [get_page_content, if_pos h]
  · rw [get_page_content, if_neg h]

/-- Witness for the amended C8 statement on a 2xx success and a 500
failure. -/
theorem fetcher_success_iff_not_4xx5xx_witness :
    get_page_content (HttpOutcome.response 200 "body") = some "body" ∧
    get_page_content (HttpOutcome.response 500 "oops") = none :=
  ⟨fetcher_success_iff_not_4xx5xx.1 200 "body" (by omega),
   fetcher_success_iff_not_4xx5xx.2.1 500 "oops" (by omega)⟩

/-- C8 counterexample: status 304 is not a success status, yet the
Fetcher returns the body instead of a failure value. -/
theorem fetcher_returns_body_on_304 :
    get_page_content (HttpOutcome.response 304 "cached") = some "cached" ∧
    ¬(200 ≤ 304 ∧ 304 < 300) := by
  exact ⟨rfl, by omega⟩

/-! ### Properties of the Dataset Writer (claim C9) -/

/-- C9: with an empty entries sequence the Writer writes no file — not
even a header-only one — and signals "no data"; a file is written
exactly when at least one entry exists, and then it consists of the
header followed by one row per entry. -/
theorem save_to_csv_empty_no_file (entries : List Entry) :
    (entries = [] → save_to_csv entries = SaveResult.noData) ∧
    (entries ≠ [] →
      save_to_csv entries =
        SaveResult.wrote (csvHeader :: entries.map entryRow) ∧
      (entries.map entryRow).length = entries.length) ∧
    (∀ lines, save_to_csv entries = SaveResult.wrote lines → entries ≠ []) := by
  refine ⟨fun h => ?_, fun h => ⟨?_, by simp⟩, fun lines h => ?_⟩
  · rw [h]; rfl
  · rw [save_to_csv, if_neg (by simpa using h)]
  · intro hnil
    rw [hnil] at h
    exact SaveResult.noConfusion h

/-- Witness for C9: the empty crawl result produces no file, a
one-entry result produces header plus one row. -/
theorem save_to_csv_empty_no_file_witness :
    save_to_csv [] = SaveResult.noData ∧
    save_to_csv [entryForC9] =
      SaveResult.wrote (csvHeader :: [entryForC9].map entryRow) :=
  ⟨(save_to_csv_empty_no_file []).1 rfl,
   ((save_to_csv_empty_no_file [entryForC9]).2.1 (by simp)).1⟩

/-! ### Properties of the Crawl Driver (claims C1, C2, C6, C10) -/

/-- Unfolding the loop along a successful chain: if from `url` the crawl
fetches the pages `docs` (each with a non-empty body and a next link)
and arrives at `lastUrl`, then with page budget `docs.length + fuel` the
run is the chain's events followed by the run from `lastUrl` with budget
`fuel`, the chain contributing `docs.length` fetch attempts and the
entries of its pages, in order, in front of the rest. -/
theorem scrapeLoop_reaches (net : String → Option RawDoc) (base now : String)
    {url : String} {docs : List PageDoc} {lastUrl : String}
    (h : Reaches net base url docs lastUrl) (fuel : Nat) :
    ∃ pre : List Ev,
      scrapeLoop net base now (some url) (docs.length + fuel) =
        (pre ++ (scrapeLoop net base now (some lastUrl) fuel).1,
         match (scrapeLoop net base now (some lastUrl) fuel).2 with
         | Except.ok l =>
             Except.ok (docs.flatMap (parse_quote_page now) ++ l)
         | Except.error e => Except.error e) ∧
      countFetches pre = docs.length := by
  induction h with
  | refl url =>
    refine ⟨[], ?_, rfl⟩
    simp only [List.length_nil, Nat.zero_add, List.nil_append,
      List.flatMap_nil, List.nil_append]
    rcases hr : scrapeLoop net base now (some url) fuel with ⟨tr, res⟩
    cases res <;> simp
  | step url d u rest lastUrl hnet hnext hu htail ih =>
    obtain ⟨pre2, heq, hcount⟩ := ih
    refine ⟨Ev.fetch url :: Ev.sleep :: pre2, ?_, ?_⟩
    · have harith : (d :: rest).length + fuel = (rest.length + fuel) + 1 := by
        simp only [List.length_cons]; omega
      rw [harith]
      show (match net url with
        | none => ([Ev.fetch url], Except.ok [])
        | some raw =>
          if raw.emptyBody then ([Ev.fetch url], Except.ok [])
          else
            let pageQuotes := parse_quote_page now raw.doc
            match get_next_page_url base raw.doc with
            | Except.error e => ([Ev.fetch url], Except.error e)
            | Except.ok none => ([Ev.fetch url], Except.ok pageQuotes)
            | Except.ok (some u) =>
              if u = "" then ([Ev.fetch url], Except.ok pageQuotes)
              else
                let rest2 := scrapeLoop net base now (some u) (rest.length + fuel)
                (Ev.fetch url :: Ev.sleep :: rest2.1,
                 match rest2.2 with
                 | Except.ok l => Except.ok (pageQuotes ++ l)
                 | Except.error e => Except.error e)) = _
      rw [hnet]
      simp only [Bool.false_eq_true, if_false]
      rw [hnext]
      simp only
      rw [if_neg hu]
      rw [heq]
      simp only [List.flatMap_cons, List.cons_append]
      rcases hr : (scrapeLoop net base now (some lastUrl) fuel).2 with e | l
      · simp
      · simp [List.append_assoc]
    · simp only [countFetches, List.countP_cons] at hcount ⊢
      simp [hcount, List.length_cons]

/-- Unfolding equation for one loop iteration with budget left. -/
theorem scrapeLoop_succ_eq (net : String → Option RawDoc) (base now url : String)
    (fuel : Nat) :
    scrapeLoop net base now (some url) (fuel + 1) =
      (match net url with
       | none => ([Ev.fetch url], Except.ok [])
       | some raw =>
         if raw.emptyBody then ([Ev.fetch url], Except.ok [])
         else
           let pageQuotes := parse_quote_page now raw.doc
           match get_next_page_url base raw.doc with
           | Except.error e => ([Ev.fetch url], Except.error e)
           | Except.ok none => ([Ev.fetch url], Except.ok pageQuotes)
           | Except.ok (some u) =>
             if u = "" then ([Ev.fetch url], Except.ok pageQuotes)
             else
               let rest := scrapeLoop net base now (some u) fuel
               (Ev.fetch url :: Ev.sleep :: rest.1,
                match rest.2 with
                | Except.ok l => Except.ok (pageQuotes ++ l)
                | Except.error e => Except.error e)) := rfl

/-- A failing fetch breaks out of the loop at once, with no entries
from this iteration. -/
theorem scrapeLoop_fetch_fail (net : String → Option RawDoc)
    (base now url : String) (fuel : Nat) (h : net url = none) :
    scrapeLoop net base now (some url) (fuel + 1) =
      ([Ev.fetch url], Except.ok []) := by
  rw [scrapeLoop_succ_eq, h]

/-- A fetch that returns an empty body breaks out of the loop at once,
exactly like a failing fetch. -/
theorem scrapeLoop_empty_body (net : String → Option RawDoc)
    (base now url : String) (d : PageDoc) (fuel : Nat)
    (h : net url = some { emptyBody := true, doc := d }) :
    scrapeLoop net base now (some url) (fuel + 1) =
      ([Ev.fetch url], Except.ok []) := by
  rw [scrapeLoop_succ_eq, h]
  simp

/-- One loop iteration at a page whose Resolver finds no next link:
one fetch, the page's entries, and the loop ends. -/
theorem scrapeLoop_last_page (net : String → Option RawDoc)
    (base now url : String) (d : PageDoc) (fuel : Nat)
    (hfetch : net url = some { emptyBody := false, doc := d })
    (hnone : get_next_page_url base d = Except.ok none) :
    scrapeLoop net base now (some url) (fuel + 1) =
      ([Ev.fetch url], Except.ok (parse_quote_page now d)) := by
  rw [scrapeLoop_succ_eq, hfetch]
  simp only [Bool.false_eq_true, if_false]
  rw [hnone]

/-- Fetch counting distributes over trace concatenation. -/
theorem countFetches_append (l1 l2 : List Ev) :
    countFetches (l1 ++ l2) = countFetches l1 + countFetches l2 :=
  List.countP_append _ l1 l2

/-- C1: if the Resolver reports no next page on page k (with k ≤
max_pages and all k fetches succeeding with usable bodies), the Driver
performs exactly k fetch attempts and returns the concatenation, in
order, of the entries of pages 1..k.  The first k−1 pages form the
chain `docs` and page k is `lastDoc`, so k = docs.length + 1. -/
theorem crawl_stops_after_k_pages
    (net : String → Option RawDoc) (base now : String)
    (docs : List PageDoc) (lastUrl : String) (lastDoc : PageDoc)
    (max_pages : Nat)
    (hreach : Reaches net base (base ++ "/page/1/") docs lastUrl)
    (hfetch : net lastUrl = some { emptyBody := false, doc := lastDoc })
    (hnone : get_next_page_url base lastDoc = Except.ok none)
    (hle : docs.length + 1 ≤ max_pages) :
    countFetches (scrape_all_pages net base now max_pages).1 =
      docs.length + 1 ∧
    (scrape_all_pages net base now max_pages).2 =
      Except.ok ((docs ++ [lastDoc]).flatMap (parse_quote_page now)) := by
  obtain ⟨k, hk⟩ := Nat.exists_eq_add_of_le hle
  have hmp : max_pages = docs.length + (k + 1) := by omega
  obtain ⟨pre, heq, hcount⟩ := scrapeLoop_reaches net base now hreach (k + 1)
  rw [scrape_all_pages, hmp, heq,
    scrapeLoop_last_page net base now lastUrl lastDoc k hfetch hnone]
  constructor
  · rw [countFetches_append, hcount]
    rfl
  · simp [List.flatMap_append, List.flatMap_cons]

/-- Witness for C1 at a concrete one-page crawl with max_pages = 5. -/
theorem crawl_stops_after_k_pages_witness :
    countFetches (scrape_all_pages netForC1 "b" "t0" 5).1 =
      List.length ([] : List PageDoc) + 1 ∧
    (scrape_all_pages netForC1 "b" "t0" 5).2 =
      Except.ok ((([] : List PageDoc) ++ [docForC1]).flatMap
        (parse_quote_page "t0")) :=
  crawl_stops_after_k_pages netForC1 "b" "t0" [] ("b" ++ "/page/1/") docForC1 5
    (Reaches.refl _) (by rw [netForC1]; simp) rfl (by simp)

/-- C2: with max_pages = 0 or max_pages = 1 the Driver performs at most
one fetch attempt, whatever the network returns and whatever pagination
links are present. -/
theorem max_pages_le_one_fetches_at_most_once
    (net : String → Option RawDoc) (base now : String) :
    countFetches (scrape_all_pages net base now 0).1 = 0 ∧
    countFetches (scrape_all_pages net base now 1).1 ≤ 1 := by
  constructor
  · rfl
  · rw [scrape_all_pages]
    show countFetches
      (scrapeLoop net base now (some (base ++ "/page/1/")) (0 + 1)).1 ≤ 1
    rw [scrapeLoop_succ_eq]
    rcases hnet : net (base ++ "/page/1/") with _ | raw
    · simp [countFetches]
    · rcases hb : raw.emptyBody
      · simp only [hb, Bool.false_eq_true, if_false]
        rcases hr : get_next_page_url base raw.doc with e | o
        · simp [countFetches]
        · rcases o with _ | u
          · simp [countFetches]
          · simp only [scrapeLoop, countFetches]
            split <;> simp [List.countP_cons]
      · simp [hb, countFetches]

/-- C10: a chain of successful pages followed by a page whose fetch
returns an HTTP success with an EMPTY body: the loop breaks at that
page exactly as it does on a failed fetch (same events, no entries from
that page), having attempted docs.length + 1 fetches and returning the
entries accumulated from the earlier pages.  The last two conjuncts
exhibit the identical one-iteration treatment of a failing fetch and of
an empty body. -/
theorem empty_body_stops_crawl
    (net : String → Option RawDoc) (base now : String)
    (docs : List PageDoc) (lastUrl : String) (lastDoc : PageDoc)
    (max_pages : Nat)
    (hreach : Reaches net base (base ++ "/page/1/") docs lastUrl)
    (hfetch : net lastUrl = some { emptyBody := true, doc := lastDoc })
    (hle : docs.length + 1 ≤ max_pages) :
    countFetches (scrape_all_pages net base now max_pages).1 =
      docs.length + 1 ∧
    (scrape_all_pages net base now max_pages).2 =
      Except.ok (docs.flatMap (parse_quote_page now)) ∧
    (∀ (net2 : String → Option RawDoc) (url : String) (fuel : Nat),
      net2 url = none →
      scrapeLoop net2 base now (some url) (fuel + 1) =
        ([Ev.fetch url], Except.ok [])) ∧
    (∀ (fuel : Nat),
      scrapeLoop net base now (some lastUrl) (fuel + 1) =
        ([Ev.fetch lastUrl], Except.ok [])) := by
  obtain ⟨k, hk⟩ := Nat.exists_eq_add_of_le hle
  have hmp : max_pages = docs.length + (k + 1) := by omega
  obtain ⟨pre, heq, hcount⟩ := scrapeLoop_reaches net base now hreach (k + 1)
  rw [scrape_all_pages, hmp, heq,
    scrapeLoop_empty_body net base now lastUrl lastDoc k hfetch]
  refine ⟨?_, ?_, ?_, ?_⟩
  · rw [countFetches_append, hcount]
    rfl
  · simp
  · intro net2 url fuel h
    exact scrapeLoop_fetch_fail net2 base now url fuel h
  · intro fuel
    exact scrapeLoop_empty_body net base now lastUrl lastDoc fuel hfetch

/-- Witness for C10: a two-page crawl whose second fetch returns an
empty body keeps page 1's entries and stops after 2 fetch attempts. -/
theorem empty_body_stops_crawl_witness :
    countFetches (scrape_all_pages netForC10 "b" "t0" 5).1 =
      [docForC10].length + 1 ∧
    (scrape_all_pages netForC10 "b" "t0" 5).2 =
      Except.ok ([docForC10].flatMap (parse_quote_page "t0")) :=
  ⟨(empty_body_stops_crawl netForC10 "b" "t0" [docForC10] ("b" ++ "/page/2/")
      { quoteDivs := [], nextLi := none } 5
      (Reaches.step _ _ _ _ _ (by rw [netForC10]; simp [docForC10]) rfl
        (by decide) (Reaches.refl _))
      (by rw [netForC10]; simp) (by simp)).1,
   (empty_body_stops_crawl netForC10 "b" "t0" [docForC10] ("b" ++ "/page/2/")
      { quoteDivs := [], nextLi := none } 5
      (Reaches.step _ _ _ _ _ (by rw [netForC10]; simp [docForC10]) rfl
        (by decide) (Reaches.refl _))
      (by rw [netForC10]; simp) (by simp)).2.1⟩

/-- A trace of a loop iteration with budget left always starts with the
fetch of the current page, so it is never empty. -/
theorem scrapeLoop_trace_ne_nil (net : String → Option RawDoc)
    (base now url : String) (n : Nat) :
    (scrapeLoop net base now (some url) (n + 1)).1 ≠ [] := by
  rw [scrapeLoop_succ_eq]
  rcases hnet : net url with _ | raw
  · simp
  · rcases hb : raw.emptyBody
    · simp only [hb, Bool.false_eq_true, if_false]
      rcases hr : get_next_page_url base raw.doc with e | o
      · simp
      · rcases o with _ | u
        · simp
        · split
          · simp
          · simp
          · split
            · simp
            · simp
    · simp [hb]

/-- Dropping the head of a list with a non-empty tail keeps the last
element. -/
theorem getLast?_cons_of_ne_nil {α : Type} (a : α) {t : List α}
    (h : t ≠ []) : (a :: t).getLast? = t.getLast? := by
  rcases t with _ | ⟨b, t2⟩
  · exact absurd rfl h
  · exact List.getLast?_cons_cons

/-- One loop iteration at a page whose Resolver raises: the crawl
aborts with the exception. -/
theorem scrapeLoop_resolver_error (net : String → Option RawDoc)
    (base now url : String) (d : PageDoc) (e : String) (fuel : Nat)
    (hfetch : net url = some { emptyBody := false, doc := d })
    (herr : get_next_page_url base d = Except.error e) :
    scrapeLoop net base now (some url) (fuel + 1) =
      ([Ev.fetch url], Except.error e) := by
  rw [scrapeLoop_succ_eq, hfetch]
  simp only [Bool.false_eq_true, if_false]
  rw [herr]

/-- One loop iteration at a page whose Resolver finds a next link:
fetch, sleep, and continue at the next URL with one less unit of page
budget. -/
theorem scrapeLoop_next_page (net : String → Option RawDoc)
    (base now url : String) (d : PageDoc) (u : String) (fuel : Nat)
    (hfetch : net url = some { emptyBody := false, doc := d })
    (hnext : get_next_page_url base d = Except.ok (some u))
    (hu : u ≠ "") :
    scrapeLoop net base now (some url) (fuel + 1) =
      (Ev.fetch url :: Ev.sleep :: (scrapeLoop net base now (some u) fuel).1,
       match (scrapeLoop net base now (some u) fuel).2 with
       | Except.ok l => Except.ok (parse_quote_page now d ++ l)
       | Except.error e => Except.error e) := by
  rw [scrapeLoop_succ_eq, hfetch]
  simp only [Bool.false_eq_true, if_false]
  rw [hnext]
  simp only
  rw [if_neg hu]

/-- Trace of one loop iteration at a page with a next link. -/
theorem scrapeLoop_next_page_fst (net : String → Option RawDoc)
    (base now url : String) (d : PageDoc) (u : String) (fuel : Nat)
    (hfetch : net url = some { emptyBody := false, doc := d })
    (hnext : get_next_page_url base d = Except.ok (some u))
    (hu : u ≠ "") :
    (scrapeLoop net base now (some url) (fuel + 1)).1 =
      Ev.fetch url :: Ev.sleep :: (scrapeLoop net base now (some u) fuel).1 := by
  rw [scrapeLoop_next_page net base now url d u fuel hfetch hnext hu]

/-- One loop iteration at a page whose Resolver yields the falsy empty
string as next URL (possible only when base and href are both empty):
the loop ends without a sleep, keeping the page's entries. -/
theorem scrapeLoop_falsy_next (net : String → Option RawDoc)
    (base now url : String) (d : PageDoc) (fuel : Nat)
    (hfetch : net url = some { emptyBody := false, doc := d })
    (hnext : get_next_page_url base d = Except.ok (some "")) :
    scrapeLoop net base now (some url) (fuel + 1) =
      ([Ev.fetch url], Except.ok (parse_quote_page now d)) := by
  rw [scrapeLoop_succ_eq, hfetch]
  simp only [Bool.false_eq_true, if_false]
  rw [hnext]
  simp

/-- Every sleep event in a crawl trace immediately follows a fetch
event: the pause is taken right after fetching a page whose document
yields a next-page URL, and nowhere else — in particular never before
the first fetch. -/
theorem scrapeLoop_sleeps_follow_fetches (net : String → Option RawDoc)
    (base now : String) :
    ∀ (fuel : Nat) (cur : Option String) (b : Bool),
      sleepsOnlyAfterFetch (scrapeLoop net base now cur fuel).1 b = true := by
  intro fuel
  induction fuel with
  | zero =>
    intro cur b
    rcases cur with _ | url <;> rfl
  | succ n ih =>
    intro cur b
    rcases cur with _ | url
    · rfl
    · rcases hnet : net url with _ | ⟨eb, d⟩
      · rw [scrapeLoop_fetch_fail net base now url n hnet]
        rfl
      · rcases eb
        · rcases hr : get_next_page_url base d with e | o
          · rw [scrapeLoop_resolver_error net base now url d e n hnet hr]
            rfl
          · rcases o with _ | u
            · rw [scrapeLoop_last_page net base now url d n hnet hr]
              rfl
            · by_cases hu : u = ""
              · rw [hu] at hr
                rw [scrapeLoop_falsy_next net base now url d n hnet hr]
                rfl
              · rw [scrapeLoop_next_page_fst net base now url d u n hnet hr hu]
                rw [sleepsOnlyAfterFetch, sleepsOnlyAfterFetch]
                simp [ih (some u) false]
        · rw [scrapeLoop_empty_body net base now url d n hnet]
          rfl

/-- A crawl trace can end in a sleep event only when the page budget is
exhausted: in that case the trace holds exactly `fuel` fetches, i.e.
the ceiling was reached while a next-page link was present. -/
theorem scrapeLoop_trailing_sleep_count (net : String → Option RawDoc)
    (base now : String) :
    ∀ (fuel : Nat) (cur : Option String),
      (scrapeLoop net base now cur fuel).1.getLast? = some Ev.sleep →
      countFetches (scrapeLoop net base now cur fuel).1 = fuel := by
  intro fuel
  induction fuel with
  | zero =>
    intro cur h
    rcases cur with _ | url <;> simp [scrapeLoop] at h
  | succ n ih =>
    intro cur h
    rcases cur with _ | url
    · simp [scrapeLoop] at h
    · rcases hnet : net url with _ | ⟨eb, d⟩
      · rw [scrapeLoop_fetch_fail net base now url n hnet] at h
        simp at h
      · rcases eb
        · rcases hr : get_next_page_url base d with e | o
          · rw [scrapeLoop_resolver_error net base now url d e n hnet hr] at h
            simp at h
          · rcases o with _ | u
            · rw [scrapeLoop_last_page net base now url d n hnet hr] at h
              simp at h
            · by_cases hu : u = ""
              · rw [hu] at hr
                rw [scrapeLoop_falsy_next net base now url d n hnet hr] at h
                simp at h
              · rw [scrapeLoop_next_page_fst net base now url d u n hnet hr hu]
                  at h ⊢
                rcases n with _ | m
                · simp [countFetches, List.countP_cons, scrapeLoop]
                · have hne := scrapeLoop_trace_ne_nil net base now u m
                  rw [getLast?_cons_of_ne_nil _ (by simp),
                    getLast?_cons_of_ne_nil _ hne] at h
                  have hcount := ih (some u) h
                  simp only [countFetches, List.countP_cons] at hcount ⊢
                  simp [hcount]
        · rw [scrapeLoop_empty_body net base now url d n hnet] at h
          simp at h

/-- C6 (amended): the pacing delay is taken exactly after each fetch
whose page yields a next-page URL: it occurs only immediately after a
fetch (so never before the first fetch, and never twice in a row), and
it can follow the final fetch of the run only when the run ends because
the max_pages ceiling was reached while a next-page link was present —
a run ending by fetch failure, empty body, or absent next link never
sleeps after its final fetch. -/
theorem sleep_only_after_fetch (net : String → Option RawDoc)
    (base now : String) (max_pages : Nat) :
    sleepsOnlyAfterFetch (scrape_all_pages net base now max_pages).1 false =
      true ∧
    ((scrape_all_pages net base now max_pages).1.getLast? = some Ev.sleep →
      countFetches (scrape_all_pages net base now max_pages).1 = max_pages) :=
  ⟨scrapeLoop_sleeps_follow_fetches net base now max_pages _ false,
   scrapeLoop_trailing_sleep_count net base now max_pages _⟩

/-- Witness for the amended C6 statement at a concrete crawl: the trace
ends in a sleep, and indeed the fetch count equals the ceiling. -/
theorem sleep_only_after_fetch_witness :
    sleepsOnlyAfterFetch (scrape_all_pages netForC6 "b" "t0" 1).1 false =
      true ∧
    countFetches (scrape_all_pages netForC6 "b" "t0" 1).1 = 1 :=
  ⟨(sleep_only_after_fetch netForC6 "b" "t0" 1).1,
   (sleep_only_after_fetch netForC6 "b" "t0" 1).2 rfl⟩

/-- C6 counterexample: with max_pages = 1 and a page that carries a
next-page link, the ceiling ends the run, yet the trace is
fetch-then-sleep — the pacing delay IS performed after the final fetch
of the run. -/
theorem sleep_after_final_fetch_at_ceiling :
    (scrape_all_pages netForC6 "b" "t0" 1).1 =
      [Ev.fetch ("b" ++ "/page/1/"), Ev.sleep] ∧
    (scrape_all_pages netForC6 "b" "t0" 1).1.getLast? = some Ev.sleep := by
  constructor
  · rfl
  · rfl

end Scraper
